import Mathlib

/-!
Verification of the `strong` strong-typedef library (header `strong.hpp`).

The header defines a wrapper class `strong::type<TypeName, Type>` holding a
single `Type value`, explicit construction from a value, explicit conversion
back to the underlying representation, a free accessor `strong::get`, and a
family of operator mixin classes in `strong::op` (`equals`, `orders`, `adds`,
`subtracts`, `multiplies`, `divides`, `modulo`, `increments`, `decrements`).
Each mixin's operator is defined purely via `get` and the underlying
representation's own operators.

The shallow embedding below mirrors those definitions.  Template parameters
become Lean type parameters; the underlying representation's operators, which
in C++ are whatever the representation type defines, become explicit function
parameters (`ueq`, `ult`, `uadd`, ...).  Compound-assignment, increment and
decrement operators mutate their operand, so they are embedded as functions
on an explicit two-cell store (`strong.State`) together with the location of
the reference they return.
-/

namespace strong

/-- Embedding of `strong::type<TypeName, Type>`: a wrapper holding exactly one
`value : Ty`, tagged by the marker type `TypeName`.  The C++ value constructor
`explicit constexpr type(Type const &v) : value(v)` is the structure
constructor `type.mk`. -/
structure type (TypeName : Type) (Ty : Type) where
  value : Ty
deriving DecidableEq

/-- Embedding of the free accessor `strong::get` (both the mutable and the
const overload return a reference to the stored value). -/
def get {TypeName Ty : Type} (object : type TypeName Ty) : Ty :=
  object.value

/-- Embedding of the default constructor `constexpr type() : value()`:
the underlying value is value-initialized, i.e. it takes the underlying
representation's own default value. -/
def type.defaultCtor (TypeName Ty : Type) [Inhabited Ty] : type TypeName Ty :=
  type.mk default

/-- A two-cell store holding the operands `a` (left) and `b` (right) of an
operator call, used to embed operators that take a non-const reference. -/
structure State (TypeName : Type) (Ty : Type) where
  a : type TypeName Ty
  b : type TypeName Ty
deriving DecidableEq

/-- Which cell of a `State` a returned reference points to. -/
inductive Loc where
  | la
  | lb
deriving DecidableEq

/-- Dereference a returned reference in a store. -/
def State.read {TypeName Ty : Type} (s : State TypeName Ty) : Loc → type TypeName Ty
  | Loc.la => s.a
  | Loc.lb => s.b

namespace op

variable {TypeName Ty : Type}

/-- `strong::op::equals::operator==`: `return get(lhs) == get(rhs);`
(`ueq` is the underlying representation's own equality operator). -/
def equals.eq (ueq : Ty → Ty → Bool) (lhs rhs : type TypeName Ty) : Bool :=
  ueq (get lhs) (get rhs)

/-- `strong::op::equals::operator!=`: `return !(lhs == rhs);` -/
def equals.ne (ueq : Ty → Ty → Bool) (lhs rhs : type TypeName Ty) : Bool :=
  !(equals.eq ueq lhs rhs)

/-- `strong::op::orders::operator<`: `return get(lhs) < get(rhs);`
(`ult` is the underlying representation's own less-than operator). -/
def orders.lt (ult : Ty → Ty → Bool) (lhs rhs : type TypeName Ty) : Bool :=
  ult (get lhs) (get rhs)

/-- `strong::op::orders::operator<=`: `return !(rhs < lhs);` -/
def orders.le (ult : Ty → Ty → Bool) (lhs rhs : type TypeName Ty) : Bool :=
  !(orders.lt ult rhs lhs)

/-- `strong::op::orders::operator>`: `return get(lhs) > get(rhs);`
(`ugt` is the underlying representation's own greater-than operator). -/
def orders.gt (ugt : Ty → Ty → Bool) (lhs rhs : type TypeName Ty) : Bool :=
  ugt (get lhs) (get rhs)

/-- `strong::op::orders::operator>=`: `return !(rhs > lhs);` -/
def orders.ge (ugt : Ty → Ty → Bool) (lhs rhs : type TypeName Ty) : Bool :=
  !(orders.gt ugt rhs lhs)

/-- `strong::op::adds::operator+`: `return TypeName(get(lhs) + get(rhs));` -/
def adds.add (uadd : Ty → Ty → Ty) (lhs rhs : type TypeName Ty) : type TypeName Ty :=
  type.mk (uadd (get lhs) (get rhs))

/-- `strong::op::subtracts::operator-`: `return TypeName(get(lhs) - get(rhs));` -/
def subtracts.sub (usub : Ty → Ty → Ty) (lhs rhs : type TypeName Ty) : type TypeName Ty :=
  type.mk (usub (get lhs) (get rhs))

/-- `strong::op::multiplies::operator*`: `return TypeName(get(lhs) * get(rhs));` -/
def multiplies.mul (umul : Ty → Ty → Ty) (lhs rhs : type TypeName Ty) : type TypeName Ty :=
  type.mk (umul (get lhs) (get rhs))

/-- `strong::op::divides::operator/`: `return TypeName(get(lhs) / get(rhs));` -/
def divides.div (udiv : Ty → Ty → Ty) (lhs rhs : type TypeName Ty) : type TypeName Ty :=
  type.mk (udiv (get lhs) (get rhs))

/-- `strong::op::modulo::operator%`: `return TypeName(get(lhs) % get(rhs));`
(`umod` is the underlying representation's own modulo operator; the mixin adds
no validation of its own, so edge cases such as a zero divisor behave exactly
as `umod` does). -/
def modulo.mod (umod : Ty → Ty → Ty) (lhs rhs : type TypeName Ty) : type TypeName Ty :=
  type.mk (umod (get lhs) (get rhs))

/-- Call `a += b` of `strong::op::adds::operator+=` on the store `(a, b)`:
the body runs `get(lhs) += get(rhs); return lhs;`, i.e. it stores
`uaddAssign (get a) (get b)` into `a`'s value (where `uaddAssign` is the
underlying representation's own compound `+=` operator) and returns a
reference to the left operand `a` itself. -/
def adds.addAssignRun (uaddAssign : Ty → Ty → Ty) (s : State TypeName Ty) :
    State TypeName Ty × Loc :=
  ({ s with a := type.mk (uaddAssign (get s.a) (get s.b)) }, Loc.la)

/-- Call `a -= b` of `strong::op::subtracts::operator-=` on the store `(a, b)`:
`get(lhs) -= get(rhs); return lhs;`. -/
def subtracts.subAssignRun (usubAssign : Ty → Ty → Ty) (s : State TypeName Ty) :
    State TypeName Ty × Loc :=
  ({ s with a := type.mk (usubAssign (get s.a) (get s.b)) }, Loc.la)

/-- Call `a *= b` of `strong::op::multiplies::operator*=` on the store `(a, b)`:
`get(lhs) *= get(rhs); return lhs;`. -/
def multiplies.mulAssignRun (umulAssign : Ty → Ty → Ty) (s : State TypeName Ty) :
    State TypeName Ty × Loc :=
  ({ s with a := type.mk (umulAssign (get s.a) (get s.b)) }, Loc.la)

/-- Call `a /= b` of `strong::op::divides::operator/=` on the store `(a, b)`:
`get(lhs) /= get(rhs); return lhs;`. -/
def divides.divAssignRun (udivAssign : Ty → Ty → Ty) (s : State TypeName Ty) :
    State TypeName Ty × Loc :=
  ({ s with a := type.mk (udivAssign (get s.a) (get s.b)) }, Loc.la)

/-- `strong::op::increments::operator++()` (the pre-fix form): the body casts
`*this` to `TypeName`, runs `++get(object)` — the underlying representation's
own pre-fix increment, embedded as `uinc` — and returns a reference to the
mutated object.  On the value embedding the mutated object is the result. -/
def increments.preInc (uinc : Ty → Ty) (x : type TypeName Ty) : type TypeName Ty :=
  type.mk (uinc (get x))

/-- `strong::op::increments::operator++(int)` (the post-fix form): the body
delegates to the pre-fix form `++(*this)` and then returns (a copy of) the
already-mutated object.  Result: (new state of the object, returned copy). -/
def increments.postInc (uinc : Ty → Ty) (x : type TypeName Ty) :
    type TypeName Ty × type TypeName Ty :=
  let object := increments.preInc uinc x
  (object, object)

/-- `strong::op::decrements::operator--()` (the pre-fix form): runs
`--get(object)` and returns a reference to the mutated object. -/
def decrements.preDec (udec : Ty → Ty) (x : type TypeName Ty) : type TypeName Ty :=
  type.mk (udec (get x))

/-- `strong::op::decrements::operator--(int)` (the post-fix form): delegates to
the pre-fix form `--(*this)` and then returns (a copy of) the already-mutated
object.  Result: (new state of the object, returned copy). -/
def decrements.postDec (udec : Ty → Ty) (x : type TypeName Ty) :
    type TypeName Ty × type TypeName Ty :=
  let object := decrements.preDec udec x
  (object, object)

/-!
Store-transformer views of the binary operator calls.  Every binary operator
of the mixins takes both operands by `const &` and its body contains no
assignment, so evaluating `a OP b` on the store `(a, b)` leaves the store
unchanged and only produces the operator's result.
-/

/-- Call `a == b` on the store `(a, b)`: const parameters, no side effects. -/
def equals.eqRun (ueq : Ty → Ty → Bool) (s : State TypeName Ty) :
    State TypeName Ty × Bool :=
  (s, equals.eq ueq s.a s.b)

/-- Call `a != b` on the store `(a, b)`: const parameters, no side effects. -/
def equals.neRun (ueq : Ty → Ty → Bool) (s : State TypeName Ty) :
    State TypeName Ty × Bool :=
  (s, equals.ne ueq s.a s.b)

/-- Call `a < b` on the store `(a, b)`: const parameters, no side effects. -/
def orders.ltRun (ult : Ty → Ty → Bool) (s : State TypeName Ty) :
    State TypeName Ty × Bool :=
  (s, orders.lt ult s.a s.b)

/-- Call `a <= b` on the store `(a, b)`: const parameters, no side effects. -/
def orders.leRun (ult : Ty → Ty → Bool) (s : State TypeName Ty) :
    State TypeName Ty × Bool :=
  (s, orders.le ult s.a s.b)

/-- Call `a > b` on the store `(a, b)`: const parameters, no side effects. -/
def orders.gtRun (ugt : Ty → Ty → Bool) (s : State TypeName Ty) :
    State TypeName Ty × Bool :=
  (s, orders.gt ugt s.a s.b)

/-- Call `a >= b` on the store `(a, b)`: const parameters, no side effects. -/
def orders.geRun (ugt : Ty → Ty → Bool) (s : State TypeName Ty) :
    State TypeName Ty × Bool :=
  (s, orders.ge ugt s.a s.b)

/-- Call `a + b` on the store `(a, b)`: const parameters, no side effects. -/
def adds.addRun (uadd : Ty → Ty → Ty) (s : State TypeName Ty) :
    State TypeName Ty × type TypeName Ty :=
  (s, adds.add uadd s.a s.b)

/-- Call `a - b` on the store `(a, b)`: const parameters, no side effects. -/
def subtracts.subRun (usub : Ty → Ty → Ty) (s : State TypeName Ty) :
    State TypeName Ty × type TypeName Ty :=
  (s, subtracts.sub usub s.a s.b)

/-- Call `a * b` on the store `(a, b)`: const parameters, no side effects. -/
def multiplies.mulRun (umul : Ty → Ty → Ty) (s : State TypeName Ty) :
    State TypeName Ty × type TypeName Ty :=
  (s, multiplies.mul umul s.a s.b)

/-- Call `a / b` on the store `(a, b)`: const parameters, no side effects. -/
def divides.divRun (udiv : Ty → Ty → Ty) (s : State TypeName Ty) :
    State TypeName Ty × type TypeName Ty :=
  (s, divides.div udiv s.a s.b)

/-- Call `a % b` on the store `(a, b)`: const parameters, no side effects. -/
def modulo.modRun (umod : Ty → Ty → Ty) (s : State TypeName Ty) :
    State TypeName Ty × type TypeName Ty :=
  (s, modulo.mod umod s.a s.b)

end op

/-!
A model of which operator calls between strong-type instances even have a
matching operator to call.  Every mixin operator in the header is a friend
function whose two parameters are both `TypeName` (by `const &`, or by
non-const `&` for the compound forms), generated per concrete instantiation;
and every conversion the wrapper declares is marked `explicit`.  The model
records exactly those declared signatures and conversions, and C++ overload
resolution's viability test: an argument fits a parameter if the types are
identical or an implicit conversion sequence exists.
-/

namespace overload

/-- C++ types occurring in the header's operator signatures: an instantiation
`strong::type<TypeName, Type>` identified by its marker and its underlying
representation (both abstracted as numbers), or an underlying representation
type itself. -/
inductive CType where
  | strongTy (marker rep : Nat)
  | base (rep : Nat)
deriving DecidableEq

/-- The operator families the mixins provide. -/
inductive OpKind where
  | eqOp | neOp | ltOp | leOp | gtOp | geOp
  | addOp | addAssignOp | subOp | subAssignOp
  | mulOp | mulAssignOp | divOp | divAssignOp
  | modOp | modAssignOp
deriving DecidableEq

/-- A conversion declaration: source type, destination type, and whether the
declaration carries the `explicit` keyword. -/
structure ConvDecl where
  src : CType
  dst : CType
  isExplicit : Bool
deriving DecidableEq

/-- The user-defined conversions the header declares between a pair of types.
`strong::type<TypeName, Type>` declares converting constructors from `Type`
(copy at line 47 and move at line 60, both `explicit`) and conversion
operators to `Type` (mutable at line 70 and const at line 80, both
`explicit`).  No other conversion is declared anywhere in the header; in
particular none between two strong types. -/
def convDeclsBetween (src dst : CType) : List ConvDecl :=
  match src, dst with
  | CType.base r, CType.strongTy _ r' =>
      if r = r' then [⟨src, dst, true⟩, ⟨src, dst, true⟩] else []
  | CType.strongTy _ r, CType.base r' =>
      if r = r' then [⟨src, dst, true⟩, ⟨src, dst, true⟩] else []
  | _, _ => []

/-- A user-defined conversion can appear in an implicit conversion sequence
only if its declaration is not marked `explicit`. -/
def implicitConvertible (src dst : CType) : Bool :=
  (convDeclsBetween src dst).any fun c => !c.isExplicit

/-- An argument of type `arg` fits a parameter of type `param` iff the types
are identical or an implicit conversion from `arg` to `param` exists. -/
def argMatch (param arg : CType) : Bool :=
  decide (arg = param) || implicitConvertible arg param

/-- The signature of one generated friend operator: the operator family and
the two parameter types. -/
structure Sig where
  op : OpKind
  lhs : CType
  rhs : CType
deriving DecidableEq

/-- A generated operator is viable for a call with argument types `(l, r)`
iff each argument fits the corresponding parameter. -/
def Sig.viable (sig : Sig) (l r : CType) : Bool :=
  argMatch sig.lhs l && argMatch sig.rhs r

/-- Signatures generated by `strong::op::equals<TypeName>` when `TypeName` is
the strong type with marker `m` over representation `r`: `operator==` and
`operator!=`, both taking `(TypeName const &, TypeName const &)`. -/
def equalsSigs (m r : Nat) : List Sig :=
  [⟨OpKind.eqOp, CType.strongTy m r, CType.strongTy m r⟩,
   ⟨OpKind.neOp, CType.strongTy m r, CType.strongTy m r⟩]

/-- Signatures generated by `strong::op::orders<TypeName>`: `operator<`,
`operator<=`, `operator>`, `operator>=` on `(TypeName const &, TypeName const &)`. -/
def ordersSigs (m r : Nat) : List Sig :=
  [⟨OpKind.ltOp, CType.strongTy m r, CType.strongTy m r⟩,
   ⟨OpKind.leOp, CType.strongTy m r, CType.strongTy m r⟩,
   ⟨OpKind.gtOp, CType.strongTy m r, CType.strongTy m r⟩,
   ⟨OpKind.geOp, CType.strongTy m r, CType.strongTy m r⟩]

/-- Signatures generated by `strong::op::adds<TypeName>`: `operator+` on
`(TypeName const &, TypeName const &)` and `operator+=` on
`(TypeName &, TypeName const &)`. -/
def addsSigs (m r : Nat) : List Sig :=
  [⟨OpKind.addOp, CType.strongTy m r, CType.strongTy m r⟩,
   ⟨OpKind.addAssignOp, CType.strongTy m r, CType.strongTy m r⟩]

/-- Signatures generated by `strong::op::subtracts<TypeName>`: `operator-`
and `operator-=`. -/
def subtractsSigs (m r : Nat) : List Sig :=
  [⟨OpKind.subOp, CType.strongTy m r, CType.strongTy m r⟩,
   ⟨OpKind.subAssignOp, CType.strongTy m r, CType.strongTy m r⟩]

/-- Signatures generated by `strong::op::multiplies<TypeName>`: `operator*`
and `operator*=`. -/
def multipliesSigs (m r : Nat) : List Sig :=
  [⟨OpKind.mulOp, CType.strongTy m r, CType.strongTy m r⟩,
   ⟨OpKind.mulAssignOp, CType.strongTy m r, CType.strongTy m r⟩]

/-- Signatures generated by `strong::op::divides<TypeName>`: `operator/`
and `operator/=`. -/
def dividesSigs (m r : Nat) : List Sig :=
  [⟨OpKind.divOp, CType.strongTy m r, CType.strongTy m r⟩,
   ⟨OpKind.divAssignOp, CType.strongTy m r, CType.strongTy m r⟩]

/-- Signatures generated by `strong::op::modulo<TypeName>`: only `operator%`
on `(TypeName const &, TypeName const &)` — the class body declares no other
member (lines 354-368 of the header). -/
def moduloSigs (m r : Nat) : List Sig :=
  [⟨OpKind.modOp, CType.strongTy m r, CType.strongTy m r⟩]

/-- All binary-operator signatures generated for the strong type with marker
`m` over representation `r` when every mixin of the header is attached. -/
def allMixinSigs (m r : Nat) : List Sig :=
  equalsSigs m r ++ ordersSigs m r ++ addsSigs m r ++ subtractsSigs m r ++
    multipliesSigs m r ++ dividesSigs m r ++ moduloSigs m r

/-- Whether some signature in `sigs` is viable for argument types `(l, r)`. -/
def anyViable (sigs : List Sig) (l r : CType) : Bool :=
  sigs.any fun sig => sig.viable l r

end overload

/-- Concrete instantiation of an underlying representation: `<` on `int`. -/
def intLt : Int → Int → Bool := fun x y => decide (x < y)

/-- Concrete instantiation of an underlying representation: `>` on `int`. -/
def intGt : Int → Int → Bool := fun x y => decide (x > y)

/-- Concrete instantiation of an underlying representation: `==` on `int`. -/
def intEq : Int → Int → Bool := fun x y => decide (x = y)

/-- Concrete instantiation of an underlying representation: the effect of the
pre-fix `++` on an `int` value. -/
def intInc : Int → Int := fun t => t + 1

/-- Concrete instantiation of an underlying representation: the effect of the
pre-fix `--` on an `int` value. -/
def intDec : Int → Int := fun t => t - 1

/-- Exactly one of three Booleans is true. -/
def exactlyOne (p q r : Bool) : Bool :=
  (p && !q && !r) || (!p && q && !r) || (!p && !q && r)

end strong

/-- C2: for instances `a`, `b` of one concrete strong type with an arithmetic
mixin, the binary operator returns an instance of that same concrete type
(visible in the result type `strong.type TypeName Ty` of each operation, not
the underlying representation `Ty`) whose accessed value is the underlying
operator applied to the two accessed values: `get(a+b) = get(a) + get(b)`,
and the analogous equation for `-`, `*` and `/`. -/
theorem claim_C2_binary_homomorphism (TypeName Ty : Type)
    (uadd usub umul udiv : Ty → Ty → Ty)
    (a b : strong.type TypeName Ty) :
    strong.get (strong.op.adds.add uadd a b) = uadd (strong.get a) (strong.get b) ∧
    strong.get (strong.op.subtracts.sub usub a b) = usub (strong.get a) (strong.get b) ∧
    strong.get (strong.op.multiplies.mul umul a b) = umul (strong.get a) (strong.get b) ∧
    strong.get (strong.op.divides.div udiv a b) = udiv (strong.get a) (strong.get b) :=
  ⟨rfl, rfl, rfl, rfl⟩

/-- C5: over underlying representation `int`, post-fix `++` on an instance
holding `v` delegates to the pre-fix form (fourth conjunct), leaves the
instance holding `v + 1` (first conjunct), and returns a copy holding the
already-mutated value `v + 1` (second conjunct), not the pre-mutation value
`v` (third conjunct); post-fix `--` behaves symmetrically with `v - 1`. -/
theorem claim_C5_post_forms_return_mutated (TypeName : Type)
    (x : strong.type TypeName Int) :
    (strong.op.increments.postInc strong.intInc x).1 = strong.type.mk (strong.get x + 1) ∧
    (strong.op.increments.postInc strong.intInc x).2 = strong.type.mk (strong.get x + 1) ∧
    (strong.op.increments.postInc strong.intInc x).2 ≠ strong.type.mk (strong.get x) ∧
    (strong.op.increments.postInc strong.intInc x).2 =
      strong.op.increments.preInc strong.intInc x ∧
    (strong.op.decrements.postDec strong.intDec x).1 = strong.type.mk (strong.get x - 1) ∧
    (strong.op.decrements.postDec strong.intDec x).2 = strong.type.mk (strong.get x - 1) ∧
    (strong.op.decrements.postDec strong.intDec x).2 ≠ strong.type.mk (strong.get x) ∧
    (strong.op.decrements.postDec strong.intDec x).2 =
      strong.op.decrements.preDec strong.intDec x := by
  refine ⟨rfl, rfl, ?_, rfl, rfl, rfl, ?_, rfl⟩ <;>
    · simp only [strong.op.increments.postInc, strong.op.increments.preInc,
        strong.op.decrements.postDec, strong.op.decrements.preDec,
        strong.intInc, strong.intDec, strong.type.mk.injEq, ne_eq]
      omega

/-- C6: constructing a strong type instance from an underlying value `v` (the
value constructor at line 47 of the header) and reading it back through the
accessor `strong::get` yields `v` again, for every marker, every underlying
representation and every value. -/
theorem claim_C6_roundtrip (TypeName Ty : Type) (v : Ty) :
    strong.get (strong.type.mk v : strong.type TypeName Ty) = v :=
  rfl

/-- C7: the default constructor (line 38 of the header) value-initializes the
stored value, so converting a default-constructed instance to its underlying
representation yields the representation's own default value — in particular
`0` when the representation is `int`; the construction is total (it is a
plain Lean function), with no constraint and no failure mode. -/
theorem claim_C7_default_value (TypeName Ty : Type) [Inhabited Ty] :
    strong.get (strong.type.defaultCtor TypeName Ty) = (default : Ty) ∧
    strong.get (strong.type.defaultCtor TypeName Int) = 0 :=
  ⟨rfl, rfl⟩

/-- C9: the modulo mixin's binary operator wraps `get(a) % get(b)` computed by
the underlying representation's own `%` (with no extra validation — the result
is exactly `umod` applied, whatever `umod` does on a zero divisor), and the
mixin generates only the binary `%` signature: its signature list maps to
`[modOp]`, so in particular no `%=` signature exists. -/
theorem claim_C9_modulo_binary_only (TypeName Ty : Type) (umod : Ty → Ty → Ty)
    (a b : strong.type TypeName Ty) (m r : Nat) :
    strong.get (strong.op.modulo.mod umod a b) = umod (strong.get a) (strong.get b) ∧
    (strong.overload.moduloSigs m r).map strong.overload.Sig.op =
      [strong.overload.OpKind.modOp] ∧
    strong.overload.OpKind.modAssignOp ∉
      (strong.overload.moduloSigs m r).map strong.overload.Sig.op := by
  refine ⟨rfl, rfl, ?_⟩
  simp [strong.overload.moduloSigs]

/-- C10: evaluating any binary operator `==`, `!=`, `<`, `<=`, `>`, `>=`,
`+`, `-`, `*`, `/`, `%` on the store `(a, b)` leaves the whole store — hence
the underlying values of both operands — unchanged, and each compound
assignment `+=`, `-=`, `*=`, `/=` leaves the right operand `b` unchanged,
mutating only `a`. -/
theorem claim_C10_operands_frame (TypeName Ty : Type)
    (ueq ult ugt : Ty → Ty → Bool)
    (uadd usub umul udiv umod uaddA usubA umulA udivA : Ty → Ty → Ty)
    (s : strong.State TypeName Ty) :
    (strong.op.equals.eqRun ueq s).1 = s ∧
    (strong.op.equals.neRun ueq s).1 = s ∧
    (strong.op.orders.ltRun ult s).1 = s ∧
    (strong.op.orders.leRun ult s).1 = s ∧
    (strong.op.orders.gtRun ugt s).1 = s ∧
    (strong.op.orders.geRun ugt s).1 = s ∧
    (strong.op.adds.addRun uadd s).1 = s ∧
    (strong.op.subtracts.subRun usub s).1 = s ∧
    (strong.op.multiplies.mulRun umul s).1 = s ∧
    (strong.op.divides.divRun udiv s).1 = s ∧
    (strong.op.modulo.modRun umod s).1 = s ∧
    (strong.op.adds.addAssignRun uaddA s).1.b = s.b ∧
    (strong.op.subtracts.subAssignRun usubA s).1.b = s.b ∧
    (strong.op.multiplies.mulAssignRun umulA s).1.b = s.b ∧
    (strong.op.divides.divAssignRun udivA s).1.b = s.b :=
  ⟨rfl, rfl, rfl, rfl, rfl, rfl, rfl, rfl, rfl, rfl, rfl, rfl, rfl, rfl, rfl⟩

/-- C3: when the underlying compound `+=` agrees with the underlying `+`
(hypothesis `hop`, true of ordinary numeric representations), executing
`a += b` on the store `(a, b)` leaves `a` holding exactly the value of the
previously computed `a + b`, and the returned reference is the left operand
`a` itself (it designates cell `la`, and dereferencing it in the post-state
reads the mutated `a`). -/
theorem claim_C3_compound_assign_consistency (TypeName Ty : Type)
    (uadd uaddAssign : Ty → Ty → Ty)
    (hop : ∀ x y : Ty, uaddAssign x y = uadd x y)
    (s : strong.State TypeName Ty) :
    (strong.op.adds.addAssignRun uaddAssign s).1.a = strong.op.adds.add uadd s.a s.b ∧
    (strong.op.adds.addAssignRun uaddAssign s).2 = strong.Loc.la ∧
    (strong.op.adds.addAssignRun uaddAssign s).1.read
        (strong.op.adds.addAssignRun uaddAssign s).2 =
      (strong.op.adds.addAssignRun uaddAssign s).1.a := by
  refine ⟨?_, rfl, rfl⟩
  simp [strong.op.adds.addAssignRun, strong.op.adds.add, hop]

/-- Witness for C3 at underlying representation `int` with `a = 60`, `b = 4`:
after `a += b`, `a` holds `a + b` (i.e. 64) and the returned reference is `a`. -/
theorem claim_C3_compound_assign_consistency_witness :
    (strong.op.adds.addAssignRun (fun x y : Int => x + y)
        (strong.State.mk (strong.type.mk 60) (strong.type.mk 4) :
          strong.State Unit Int)).1.a =
      strong.op.adds.add (fun x y : Int => x + y) (strong.type.mk 60) (strong.type.mk 4) ∧
    (strong.op.adds.addAssignRun (fun x y : Int => x + y)
        (strong.State.mk (strong.type.mk 60) (strong.type.mk 4) :
          strong.State Unit Int)).2 = strong.Loc.la ∧
    (strong.op.adds.addAssignRun (fun x y : Int => x + y)
        (strong.State.mk (strong.type.mk 60) (strong.type.mk 4) :
          strong.State Unit Int)).1.read
        (strong.op.adds.addAssignRun (fun x y : Int => x + y)
          (strong.State.mk (strong.type.mk 60) (strong.type.mk 4) :
            strong.State Unit Int)).2 =
      (strong.op.adds.addAssignRun (fun x y : Int => x + y)
        (strong.State.mk (strong.type.mk 60) (strong.type.mk 4) :
          strong.State Unit Int)).1.a :=
  claim_C3_compound_assign_consistency Unit Int (fun x y => x + y) (fun x y => x + y)
    (fun _ _ => rfl) (strong.State.mk (strong.type.mk 60) (strong.type.mk 4))

/-- C4: `a <= b` equals `not (b < a)` by definition (first conjunct), and
`a >= b` is defined as `not (b > a)` (second conjunct); when the underlying
`>` is the converse of the underlying `<` (hypothesis `hconv`, true of
ordinary numeric representations), `a >= b` also equals `not (a < b)` (third
conjunct).  Only `<` and `>` compare underlying values directly; `<=` and
`>=` are the negations of the opposite strict comparison. -/
theorem claim_C4_derived_comparisons (TypeName Ty : Type)
    (ult ugt : Ty → Ty → Bool)
    (hconv : ∀ x y : Ty, ugt x y = ult y x)
    (a b : strong.type TypeName Ty) :
    strong.op.orders.le ult a b = !(strong.op.orders.lt ult b a) ∧
    strong.op.orders.ge ugt a b = !(strong.op.orders.gt ugt b a) ∧
    strong.op.orders.ge ugt a b = !(strong.op.orders.lt ult a b) := by
  refine ⟨rfl, rfl, ?_⟩
  simp [strong.op.orders.ge, strong.op.orders.gt, strong.op.orders.lt, hconv]

/-- Witness for C4 at underlying representation `int` with `a = 50`, `b = 60`:
`int`'s `>` is the converse of its `<`, and the three derived-comparison
equations hold there. -/
theorem claim_C4_derived_comparisons_witness :
    strong.op.orders.le strong.intLt
        (strong.type.mk 50 : strong.type Unit Int) (strong.type.mk 60) =
      !(strong.op.orders.lt strong.intLt
          (strong.type.mk 60 : strong.type Unit Int) (strong.type.mk 50)) ∧
    strong.op.orders.ge strong.intGt
        (strong.type.mk 50 : strong.type Unit Int) (strong.type.mk 60) =
      !(strong.op.orders.gt strong.intGt
          (strong.type.mk 60 : strong.type Unit Int) (strong.type.mk 50)) ∧
    strong.op.orders.ge strong.intGt
        (strong.type.mk 50 : strong.type Unit Int) (strong.type.mk 60) =
      !(strong.op.orders.lt strong.intLt
          (strong.type.mk 50 : strong.type Unit Int) (strong.type.mk 60)) :=
  claim_C4_derived_comparisons Unit Int strong.intLt strong.intGt
    (fun _ _ => rfl) (strong.type.mk 50) (strong.type.mk 60)

/-- On `int`, exactly one of `x < y`, `x = y`, `y < x` holds. -/
theorem int_exactlyOne_trichotomy (x y : Int) :
    strong.exactlyOne (strong.intLt x y) (strong.intEq x y) (strong.intLt y x) = true := by
  simp only [strong.exactlyOne, strong.intLt, strong.intEq, Bool.or_eq_true,
    Bool.and_eq_true, Bool.not_eq_true', decide_eq_true_eq, decide_eq_false_iff_not]
  omega

/-- C8: for instances `a`, `b` of a concrete strong type with the equality
and ordering mixins, if the underlying comparison operators form a total
order — exactly one of `ult x y`, `ueq x y`, `ult y x` holds for all
underlying values (hypothesis `htotal`) — then exactly one of `a < b`,
`a == b`, `b < a` holds. -/
theorem claim_C8_trichotomy (TypeName Ty : Type)
    (ueq ult : Ty → Ty → Bool)
    (htotal : ∀ x y : Ty, strong.exactlyOne (ult x y) (ueq x y) (ult y x) = true)
    (a b : strong.type TypeName Ty) :
    strong.exactlyOne (strong.op.orders.lt ult a b) (strong.op.equals.eq ueq a b)
      (strong.op.orders.lt ult b a) = true :=
  htotal (strong.get a) (strong.get b)

/-- Witness for C8 at underlying representation `int` (a total order) with
`a = 50`, `b = 60`: exactly one of `a < b`, `a == b`, `b < a` holds. -/
theorem claim_C8_trichotomy_witness :
    strong.exactlyOne
      (strong.op.orders.lt strong.intLt
        (strong.type.mk 50 : strong.type Unit Int) (strong.type.mk 60))
      (strong.op.equals.eq strong.intEq
        (strong.type.mk 50 : strong.type Unit Int) (strong.type.mk 60))
      (strong.op.orders.lt strong.intLt
        (strong.type.mk 60 : strong.type Unit Int) (strong.type.mk 50)) = true :=
  claim_C8_trichotomy Unit Int strong.intEq strong.intLt int_exactlyOne_trichotomy
    (strong.type.mk 50) (strong.type.mk 60)

/-- Every conversion the header declares is marked `explicit`, so no implicit
conversion exists between any two types of the model. -/
theorem implicitConvertible_false (src dst : strong.overload.CType) :
    strong.overload.implicitConvertible src dst = false := by
  rcases src with ⟨m1, r1⟩ | r1 <;> rcases dst with ⟨m2, r2⟩ | r2 <;>
    simp only [strong.overload.implicitConvertible, strong.overload.convDeclsBetween] <;>
    first
      | rfl
      | (split <;> rfl)

/-- A friend operator generated at the strong type with marker `m` is not
viable for a call whose two arguments carry distinct markers `m1 ≠ m2`. -/
theorem sig_cross_not_viable (k : strong.overload.OpKind) (m r m1 m2 rep : Nat)
    (hne : m1 ≠ m2) :
    strong.overload.Sig.viable
      ⟨k, strong.overload.CType.strongTy m r, strong.overload.CType.strongTy m r⟩
      (strong.overload.CType.strongTy m1 rep)
      (strong.overload.CType.strongTy m2 rep) = false := by
  simp only [strong.overload.Sig.viable, strong.overload.argMatch,
    implicitConvertible_false, Bool.or_false, Bool.and_eq_false_iff,
    decide_eq_false_iff_not, strong.overload.CType.strongTy.injEq, not_and]
  omega

/-- C1: for two strong types with distinct markers `m1 ≠ m2` over the same
underlying representation `rep`, no operator signature generated by any mixin
instantiation (at any marker `m` and representation `r`) is viable for a call
taking one instance of each, and no implicit conversion exists between the
two strong types: a mixed operator application or conversion has no candidate
to resolve to, i.e. it fails at compile time. -/
theorem claim_C1_cross_marker_rejected (m r m1 m2 rep : Nat) (hne : m1 ≠ m2) :
    strong.overload.anyViable (strong.overload.allMixinSigs m r)
      (strong.overload.CType.strongTy m1 rep)
      (strong.overload.CType.strongTy m2 rep) = false ∧
    strong.overload.implicitConvertible (strong.overload.CType.strongTy m1 rep)
      (strong.overload.CType.strongTy m2 rep) = false := by
  have hv : ∀ k : strong.overload.OpKind,
      strong.overload.Sig.viable
        ⟨k, strong.overload.CType.strongTy m r, strong.overload.CType.strongTy m r⟩
        (strong.overload.CType.strongTy m1 rep)
        (strong.overload.CType.strongTy m2 rep) = false :=
    fun k => sig_cross_not_viable k m r m1 m2 rep hne
  refine ⟨?_, implicitConvertible_false _ _⟩
  simp [strong.overload.anyViable, strong.overload.allMixinSigs,
    strong.overload.equalsSigs, strong.overload.ordersSigs, strong.overload.addsSigs,
    strong.overload.subtractsSigs, strong.overload.multipliesSigs,
    strong.overload.dividesSigs, strong.overload.moduloSigs,
    List.any_append, List.any_cons, List.any_nil, hv]

/-- Witness for C1: the strong types with markers `0` and `1` over the same
representation `0`, against every signature generated at marker `0`. -/
theorem claim_C1_cross_marker_rejected_witness :
    (0 : Nat) ≠ 1 ∧
    (strong.overload.anyViable (strong.overload.allMixinSigs 0 0)
      (strong.overload.CType.strongTy 0 0)
      (strong.overload.CType.strongTy 1 0) = false ∧
    strong.overload.implicitConvertible (strong.overload.CType.strongTy 0 0)
      (strong.overload.CType.strongTy 1 0) = false) :=
  ⟨by decide, claim_C1_cross_marker_rejected 0 0 0 1 0 (by decide)⟩
